import Mathlib

/-!
Verification of the smoke-test cell of the `nr-fabric-action` repository.

The repository contains two Microsoft-Fabric notebook files
(`demo_notebook.Notebook/notebook-content.py` and
`deployment_notebook.Notebook/notebook-content.py`) whose executable cell is
the same straight-line Python smoke test.  After importing `os` and
`platform` and, from `datetime`, the names `datetime` and `timezone`, the
cell runs:

  print("Fabric Git smoke test ✅")
  print("UTC now:", datetime.now(timezone.utc).isoformat())
  print("Python:", platform.python_version())
  print("Platform:", platform.platform())
  print("Sample env var keys:", sorted(list(os.environ.keys()))[:10])

We embed the cell shallowly: the ambient host facilities the cell reads
(clock, interpreter version, platform descriptor, environment table) become
fields of a `Host` record, the five `print` calls become a list of output
lines, and the behaviour of the standard-library calls the cell makes
(`datetime.isoformat`, `sorted`, list slicing, `print`'s space-joining and
list rendering) is embedded from their documented CPython semantics.
-/

namespace FabricSmoke

/-- An aware CPython `datetime` value as read from `datetime.now(timezone.utc)`:
the broken-down UTC wall-clock fields.  CPython guarantees
`1 ≤ year ≤ 9999`, `1 ≤ month ≤ 12`, `1 ≤ day ≤ 31`, `hour ≤ 23`,
`minute ≤ 59`, `second ≤ 59`, `microsecond ≤ 999999`; these bounds appear as
hypotheses where needed. -/
structure PyDateTime where
  year : Nat
  month : Nat
  day : Nat
  hour : Nat
  minute : Nat
  second : Nat
  microsecond : Nat
deriving DecidableEq

/-- The ambient process state the cell can observe or affect: the current UTC
clock reading, the interpreter version string (`platform.python_version()`),
the platform descriptor (`platform.platform()`), the process environment
table (`os.environ`, a string-keyed dict), and the host file system. -/
structure Host where
  nowUTC : PyDateTime
  pythonVersion : String
  platformString : String
  environ : List (String × String)
  files : List (String × String)
deriving DecidableEq

/-- The `w` low decimal digits of `n`, most significant first, as characters;
for `n < 10 ^ w` this is `n` zero-padded to width `w`, which is how CPython
renders each numeric field of `datetime.isoformat()`. -/
def padChars : Nat → Nat → List Char
  | 0, _ => []
  | w + 1, n => padChars w (n / 10) ++ [Char.ofNat (48 + n % 10)]

/-- String form of `padChars`. -/
def pad (w n : Nat) : String := String.mk (padChars w n)

/-- `datetime.isoformat()` on an aware UTC datetime, per the CPython
documentation: `YYYY-MM-DDTHH:MM:SS.ffffff+00:00`, with the fractional part
omitted when `microsecond` is 0, and the fixed `+00:00` offset contributed by
`timezone.utc`. -/
def isoformatUTC (d : PyDateTime) : String :=
  pad 4 d.year ++ "-" ++ pad 2 d.month ++ "-" ++ pad 2 d.day ++ "T" ++
  pad 2 d.hour ++ ":" ++ pad 2 d.minute ++ ":" ++ pad 2 d.second ++
  (if d.microsecond = 0 then "" else "." ++ pad 6 d.microsecond) ++ "+00:00"

/-- The keys of the environment table, in table order: `list(os.environ.keys())`. -/
def environKeys (h : Host) : List String := h.environ.map Prod.fst

/-- CPython string comparison on character sequences: strings compare
lexicographically by code point, and a proper prefix compares smaller. -/
def charListLe : List Char → List Char → Bool
  | [], _ => true
  | _ :: _, [] => false
  | a :: as, b :: bs =>
    if a.toNat < b.toNat then true
    else if b.toNat < a.toNat then false
    else charListLe as bs

/-- CPython `<=` on strings. -/
def pyStrLe (a b : String) : Bool := charListLe a.data b.data

/-- The ordering CPython `sorted` uses on strings, as a proposition. -/
def pyLe (a b : String) : Prop := pyStrLe a b = true

instance : DecidableRel pyLe := fun a b =>
  inferInstanceAs (Decidable (pyStrLe a b = true))

/-- The cell's `sorted(list(os.environ.keys()))[:10]`: sort the key list
ascending by CPython string comparison and keep the first 10 entries. -/
def envKeySample (keys : List String) : List String :=
  (List.insertionSort pyLe keys).take 10

/-- A single-quote character, written by code point. -/
def squote : String := String.singleton (Char.ofNat 39)

/-- CPython `repr` of a string, embedded for strings that contain no quote,
backslash or non-printable character (true of the environment-variable names
the cell prints): the text wrapped in single quotes. -/
def pyReprStr (s : String) : String := squote ++ s ++ squote

/-- CPython rendering of a list of strings, as `print` displays it:
square brackets around the comma-space-separated `repr`s of the elements. -/
def pyListRepr (xs : List String) : String :=
  "[" ++ String.intercalate ", " (xs.map pyReprStr) ++ "]"

/-- The five lines the smoke-test cell writes to standard output, in program
order.  Each `print` with several arguments joins them with single spaces. -/
def smokeTestLines (h : Host) : List String :=
  [ "Fabric Git smoke test ✅"
  , "UTC now: " ++ isoformatUTC h.nowUTC
  , "Python: " ++ h.pythonVersion
  , "Platform: " ++ h.platformString
  , "Sample env var keys: " ++ pyListRepr (envKeySample (environKeys h)) ]

/-- Observable side effects a Python cell could perform on the host.  The
smoke-test cell only ever emits `printLine`; the other constructors exist so
that the frame property "no file writes, no network access, no environment
mutation" is a statement about the trace rather than about a type that cannot
express those effects. -/
inductive Effect where
  | printLine (line : String)
  | writeFile (path content : String)
  | networkRequest (url : String)
  | setEnvVar (key value : String)
deriving DecidableEq

/-- Whether an effect is a write to standard output. -/
def Effect.isPrintLine : Effect → Bool
  | .printLine _ => true
  | _ => false

/-- Running the cell on a host: the final host state and the trace of
effects.  The cell is straight-line and only prints, so the host state is
returned unchanged and the trace is the five print effects. -/
def runCell (h : Host) : Host × List Effect :=
  (h, (smokeTestLines h).map Effect.printLine)

/-- The single error kind of the spec's taxonomy: an ambient host facility
could not be read. -/
inductive PyError where
  | environmentUnavailable (message : String)
deriving DecidableEq

/-- A host whose ambient reads may fail.  Each facility the cell touches is a
fallible read; the plain `Host` is the special case where every read
succeeds. -/
structure FallibleHost where
  readClock : Except PyError PyDateTime
  readPythonVersion : Except PyError String
  readPlatform : Except PyError String
  readEnviron : Except PyError (List (String × String))

/-- Running the cell against fallible ambient reads, statement by statement:
the lines printed before any failure, and the error, if one occurred.  The
cell has no handler, so the first failing read aborts the run and its error
is returned unmodified (CPython propagates the exception to the notebook
host). -/
def cellRunFallible (f : FallibleHost) : List String × Option PyError :=
  let out1 := ["Fabric Git smoke test ✅"]
  match f.readClock with
  | .error e => (out1, some e)
  | .ok now =>
    let out2 := out1 ++ ["UTC now: " ++ isoformatUTC now]
    match f.readPythonVersion with
    | .error e => (out2, some e)
    | .ok pv =>
      let out3 := out2 ++ ["Python: " ++ pv]
      match f.readPlatform with
      | .error e => (out3, some e)
      | .ok pl =>
        let out4 := out3 ++ ["Platform: " ++ pl]
        match f.readEnviron with
        | .error e => (out4, some e)
        | .ok env =>
          (out4 ++ ["Sample env var keys: " ++
                    pyListRepr (envKeySample (env.map Prod.fst))], none)

/-- Whether every ambient read of a fallible host succeeds. -/
def FallibleHost.allReadsOk (f : FallibleHost) : Bool :=
  f.readClock.isOk && f.readPythonVersion.isOk &&
  f.readPlatform.isOk && f.readEnviron.isOk

/-- Expressions appearing as `print` arguments in the cell. -/
inductive PyExpr where
  | strLit (s : String)
  | utcNowIsoformat
  | pythonVersionCall
  | platformCall
  | sortedEnvironKeysTakeTen
deriving DecidableEq

/-- Statements of the executable cell. -/
inductive PyStmt where
  | importModules (names : List String)
  | fromDatetimeImport (names : List String)
  | printCall (args : List PyExpr)
deriving DecidableEq

/-- Value of a `print` argument on a given host. -/
def evalExpr (h : Host) : PyExpr → String
  | .strLit s => s
  | .utcNowIsoformat => isoformatUTC h.nowUTC
  | .pythonVersionCall => h.pythonVersion
  | .platformCall => h.platformString
  | .sortedEnvironKeysTakeTen => pyListRepr (envKeySample (environKeys h))

/-- Lines a statement writes to standard output: imports write nothing, a
`print` writes its arguments joined by single spaces as one line. -/
def execStmt (h : Host) : PyStmt → List String
  | .importModules _ => []
  | .fromDatetimeImport _ => []
  | .printCall args => [String.intercalate " " (args.map (evalExpr h))]

/-- Lines a statement sequence writes, in order. -/
def execStmts (h : Host) (stmts : List PyStmt) : List String :=
  (stmts.map (execStmt h)).flatten

/-- The statements of the (single) executable cell of
`demo_notebook.Notebook/notebook-content.py`, transcribed in order.  The
notebook's first cell block holds only comments, so it contributes no
statements. -/
def demoCellStatements : List PyStmt :=
  [ .importModules ["os", "platform"]
  , .fromDatetimeImport ["datetime", "timezone"]
  , .printCall [.strLit "Fabric Git smoke test ✅"]
  , .printCall [.strLit "UTC now:", .utcNowIsoformat]
  , .printCall [.strLit "Python:", .pythonVersionCall]
  , .printCall [.strLit "Platform:", .platformCall]
  , .printCall [.strLit "Sample env var keys:", .sortedEnvironKeysTakeTen] ]

/-- The statements of the executable cell of
`deployment_notebook.Notebook/notebook-content.py`, transcribed in order. -/
def deploymentCellStatements : List PyStmt :=
  [ .importModules ["os", "platform"]
  , .fromDatetimeImport ["datetime", "timezone"]
  , .printCall [.strLit "Fabric Git smoke test ✅"]
  , .printCall [.strLit "UTC now:", .utcNowIsoformat]
  , .printCall [.strLit "Python:", .pythonVersionCall]
  , .printCall [.strLit "Platform:", .platformCall]
  , .printCall [.strLit "Sample env var keys:", .sortedEnvironKeysTakeTen] ]

/-- One position of a fixed-width character layout: a decimal digit or a
fixed literal character. -/
inductive FSpec where
  | digit
  | lit (c : Char)
deriving DecidableEq

/-- Whether a character sequence matches a fixed-width layout exactly. -/
def specMatch : List FSpec → List Char → Bool
  | [], [] => true
  | FSpec.digit :: fs, c :: cs => c.isDigit && specMatch fs cs
  | FSpec.lit a :: fs, c :: cs => (c == a) && specMatch fs cs
  | _, _ => false

/-- Layout of `w` consecutive decimal digits. -/
def digitSpec (w : Nat) : List FSpec := List.replicate w FSpec.digit

/-- Layout of a fixed literal string. -/
def litSpec (s : String) : List FSpec := s.data.map FSpec.lit

/-- The ISO-8601 extended date-time layout `YYYY-MM-DDTHH:MM:SS`. -/
def isoDateTimeSpec : List FSpec :=
  digitSpec 4 ++ litSpec "-" ++ digitSpec 2 ++ litSpec "-" ++ digitSpec 2 ++
  litSpec "T" ++ digitSpec 2 ++ litSpec ":" ++ digitSpec 2 ++ litSpec ":" ++
  digitSpec 2

/-- The explicit UTC offset designator `+00:00`. -/
def utcOffsetSpec : List FSpec := litSpec "+00:00"

/-- Whether a string is a well-formed ISO-8601 extended date-time instant
carrying the explicit UTC offset `+00:00`, with or without a 6-digit
fractional-second part (the two layouts `datetime.isoformat` can emit for an
aware UTC datetime). -/
def isIso8601WithUTCOffset (s : String) : Bool :=
  specMatch (isoDateTimeSpec ++ utcOffsetSpec) s.data ||
  specMatch (isoDateTimeSpec ++ litSpec "." ++ digitSpec 6 ++ utcOffsetSpec)
    s.data

/-- Totality of CPython string comparison on character sequences. -/
theorem charListLe_total (x : List Char) :
    ∀ y, charListLe x y = true ∨ charListLe y x = true := by
  induction x with
  | nil => intro y; left; rfl
  | cons a as ih =>
    intro y
    cases y with
    | nil => right; rfl
    | cons b bs =>
      by_cases hab : a.toNat < b.toNat
      · left; simp [charListLe, hab]
      · by_cases hba : b.toNat < a.toNat
        · right; simp [charListLe, hba]
        · rcases ih bs with h | h
          · left; simp [charListLe, hab, hba, h]
          · right; simp [charListLe, hab, hba, h]

/-- Transitivity of CPython string comparison on character sequences. -/
theorem charListLe_trans (x : List Char) :
    ∀ y z, charListLe x y = true → charListLe y z = true →
      charListLe x z = true := by
  induction x with
  | nil => intro y z _ _; rfl
  | cons a as ih =>
    intro y z h1 h2
    cases y with
    | nil => simp [charListLe] at h1
    | cons b bs =>
      cases z with
      | nil => simp [charListLe] at h2
      | cons c cs =>
        simp only [charListLe] at h1 h2 ⊢
        by_cases hab : a.toNat < b.toNat
        · by_cases hbc : b.toNat < c.toNat
          · simp [show a.toNat < c.toNat by omega]
          · by_cases hcb : c.toNat < b.toNat
            · simp [hbc, hcb] at h2
            · simp [show a.toNat < c.toNat by omega]
        · by_cases hba : b.toNat < a.toNat
          · simp [hab, hba] at h1
          · by_cases hbc : b.toNat < c.toNat
            · simp [show a.toNat < c.toNat by omega]
            · by_cases hcb : c.toNat < b.toNat
              · simp [hbc, hcb] at h2
              · simp [hab, hba] at h1
                simp [hbc, hcb] at h2
                simp [show ¬ a.toNat < c.toNat by omega,
                      show ¬ c.toNat < a.toNat by omega]
                exact ih bs cs h1 h2

instance : IsTotal String pyLe :=
  ⟨fun a b => charListLe_total a.data b.data⟩

instance : IsTrans String pyLe :=
  ⟨fun a b c => charListLe_trans a.data b.data c.data⟩

/-- The character CPython pads a numeric field with is always a decimal
digit. -/
theorem digitChar_isDigit (n : Nat) :
    (Char.ofNat (48 + n % 10)).isDigit = true := by
  have h : n % 10 < 10 := Nat.mod_lt _ (by norm_num)
  have hall : ∀ k < 10, (Char.ofNat (48 + k)).isDigit = true := by decide
  exact hall _ h

/-- A layout match extends through one fixed literal character. -/
theorem specMatch_lit_cons {fs : List FSpec} {cs : List Char} (c : Char)
    (h : specMatch fs cs = true) :
    specMatch (FSpec.lit c :: fs) (c :: cs) = true := by
  simp [specMatch, h]

/-- A layout match extends through a zero-padded numeric field of any
width. -/
theorem specMatch_digit_block {fs : List FSpec} {cs : List Char} (w n : Nat)
    (h : specMatch fs cs = true) :
    specMatch (digitSpec w ++ fs) (padChars w n ++ cs) = true := by
  induction w generalizing n fs cs with
  | zero => simpa [digitSpec, padChars] using h
  | succ w ih =>
    have h1 : digitSpec (w + 1) = digitSpec w ++ [FSpec.digit] := by
      simp [digitSpec, List.replicate_succ']
    have h2 : padChars (w + 1) n ++ cs =
        padChars w (n / 10) ++ (Char.ofNat (48 + n % 10) :: cs) := by
      simp [padChars]
    rw [h1, List.append_assoc, h2]
    apply ih
    simp [specMatch, digitChar_isDigit, h]

/-- The string `datetime.isoformat` produces for an aware UTC datetime is a
well-formed ISO-8601 instant carrying the `+00:00` offset, whatever the
field values. -/
theorem isoformatUTC_valid (d : PyDateTime) :
    isIso8601WithUTCOffset (isoformatUTC d) = true := by
  rw [isIso8601WithUTCOffset, Bool.or_eq_true]
  by_cases h0 : d.microsecond = 0
  · left
    have hdata : (isoformatUTC d).data =
        padChars 4 d.year ++ '-' ::
        (padChars 2 d.month ++ '-' ::
        (padChars 2 d.day ++ 'T' ::
        (padChars 2 d.hour ++ ':' ::
        (padChars 2 d.minute ++ ':' ::
        (padChars 2 d.second ++ ['+', '0', '0', ':', '0', '0']))))) := by
      simp [isoformatUTC, h0, pad, String.data_append, List.append_assoc]
    have hspec : isoDateTimeSpec ++ utcOffsetSpec =
        digitSpec 4 ++ FSpec.lit '-' ::
        (digitSpec 2 ++ FSpec.lit '-' ::
        (digitSpec 2 ++ FSpec.lit 'T' ::
        (digitSpec 2 ++ FSpec.lit ':' ::
        (digitSpec 2 ++ FSpec.lit ':' ::
        (digitSpec 2 ++ [FSpec.lit '+', FSpec.lit '0', FSpec.lit '0',
          FSpec.lit ':', FSpec.lit '0', FSpec.lit '0']))))) := by
      simp [isoDateTimeSpec, utcOffsetSpec, litSpec, List.append_assoc]
    rw [hdata, hspec]
    repeat first
      | rfl
      | apply specMatch_digit_block
      | apply specMatch_lit_cons
  · right
    have hdata : (isoformatUTC d).data =
        padChars 4 d.year ++ '-' ::
        (padChars 2 d.month ++ '-' ::
        (padChars 2 d.day ++ 'T' ::
        (padChars 2 d.hour ++ ':' ::
        (padChars 2 d.minute ++ ':' ::
        (padChars 2 d.second ++ '.' ::
        (padChars 6 d.microsecond ++ ['+', '0', '0', ':', '0', '0'])))))) := by
      simp [isoformatUTC, h0, pad, String.data_append, List.append_assoc]
    have hspec : isoDateTimeSpec ++ litSpec "." ++ digitSpec 6 ++
        utcOffsetSpec =
        digitSpec 4 ++ FSpec.lit '-' ::
        (digitSpec 2 ++ FSpec.lit '-' ::
        (digitSpec 2 ++ FSpec.lit 'T' ::
        (digitSpec 2 ++ FSpec.lit ':' ::
        (digitSpec 2 ++ FSpec.lit ':' ::
        (digitSpec 2 ++ FSpec.lit '.' ::
        (digitSpec 6 ++ [FSpec.lit '+', FSpec.lit '0', FSpec.lit '0',
          FSpec.lit ':', FSpec.lit '0', FSpec.lit '0'])))))) := by
      simp [isoDateTimeSpec, utcOffsetSpec, litSpec, List.append_assoc]
    rw [hdata, hspec]
    repeat first
      | rfl
      | apply specMatch_digit_block
      | apply specMatch_lit_cons

/-- The string `datetime.isoformat` produces always ends in the six
characters of the explicit UTC offset `+00:00`. -/
theorem isoformatUTC_offset_suffix (d : PyDateTime) :
    ∃ p : List Char,
      (isoformatUTC d).data = p ++ ['+', '0', '0', ':', '0', '0'] := by
  by_cases h0 : d.microsecond = 0
  · refine ⟨padChars 4 d.year ++ '-' ::
      (padChars 2 d.month ++ '-' ::
      (padChars 2 d.day ++ 'T' ::
      (padChars 2 d.hour ++ ':' ::
      (padChars 2 d.minute ++ ':' :: padChars 2 d.second)))), ?_⟩
    simp [isoformatUTC, h0, pad, String.data_append, List.append_assoc]
  · refine ⟨padChars 4 d.year ++ '-' ::
      (padChars 2 d.month ++ '-' ::
      (padChars 2 d.day ++ 'T' ::
      (padChars 2 d.hour ++ ':' ::
      (padChars 2 d.minute ++ ':' ::
      (padChars 2 d.second ++ '.' :: padChars 6 d.microsecond))))), ?_⟩
    simp [isoformatUTC, h0, pad, String.data_append, List.append_assoc]

/-- The sample never exceeds 10 entries. -/
theorem envKeySample_length_le (keys : List String) :
    (envKeySample keys).length ≤ 10 := by
  simp [envKeySample]

/-- The sample is sorted ascending by CPython string comparison. -/
theorem envKeySample_sorted (keys : List String) :
    (envKeySample keys).Sorted pyLe :=
  List.Pairwise.sublist (List.take_sublist 10 _)
    (List.sorted_insertionSort pyLe keys)

/-- The sample has no duplicates when the key list has none. -/
theorem envKeySample_nodup (keys : List String) (h : keys.Nodup) :
    (envKeySample keys).Nodup :=
  (((List.perm_insertionSort pyLe keys).symm.nodup h).sublist
    (List.take_sublist 10 _))

/-- Every sample entry is a key of the environment. -/
theorem envKeySample_mem (keys : List String) :
    ∀ x ∈ envKeySample keys, x ∈ keys := fun _ hx =>
  (List.perm_insertionSort pyLe keys).mem_iff.mp
    ((List.take_sublist 10 _).mem hx)

/-- With more than 10 keys the sample holds exactly 10 entries. -/
theorem envKeySample_length_eq (keys : List String)
    (h : 10 < keys.length) : (envKeySample keys).length = 10 := by
  have hlen : (List.insertionSort pyLe keys).length = keys.length :=
    (List.perm_insertionSort pyLe keys).length_eq
  simp only [envKeySample, List.length_take, hlen]
  omega

/-- Every key left out of the sample compares at least as large as every
sample entry and differs from it. -/
theorem envKeySample_dominated (keys : List String) :
    ∀ y ∈ keys, y ∉ envKeySample keys →
      ∀ x ∈ envKeySample keys, pyLe x y ∧ x ≠ y := by
  intro y hy hynot x hx
  have hysort : y ∈ List.insertionSort pyLe keys :=
    (List.perm_insertionSort pyLe keys).mem_iff.mpr hy
  have hydrop : y ∈ (List.insertionSort pyLe keys).drop 10 := by
    rcases (List.mem_append.mp
      (by rwa [List.take_append_drop] :
        y ∈ (List.insertionSort pyLe keys).take 10 ++
            (List.insertionSort pyLe keys).drop 10)) with h' | h'
    · exact absurd h' hynot
    · exact h'
  refine ⟨(List.sorted_insertionSort pyLe keys).rel_of_mem_take_of_mem_drop
    hx hydrop, ?_⟩
  exact fun he => hynot (he ▸ hx)

/-- The statement-level model of the cell produces exactly the five
smoke-test lines. -/
theorem execStmts_demoCell (h : Host) :
    execStmts h demoCellStatements = smokeTestLines h := rfl

/-- A concrete clock reading used to instantiate universally quantified
theorems. -/
def dt0 : PyDateTime := ⟨2024, 5, 17, 12, 34, 56, 789000⟩

/-- A later concrete clock reading in the same process. -/
def dt1 : PyDateTime := ⟨2024, 5, 17, 12, 35, 7, 0⟩

/-- A concrete host with a two-entry environment. -/
def hostA : Host :=
  { nowUTC := dt0
  , pythonVersion := "3.11.4"
  , platformString := "Linux-5.15.0-x86_64"
  , environ := [("PATH", "/usr/bin"), ("HOME", "/root")]
  , files := [] }

/-- The same host observed at a later clock reading. -/
def hostB : Host := { hostA with nowUTC := dt1 }

/-- A concrete host whose environment holds 15 variables. -/
def hostFifteen : Host :=
  { hostA with environ :=
      [ ("V07", ""), ("V03", ""), ("V15", ""), ("V01", ""), ("V09", "")
      , ("V05", ""), ("V13", ""), ("V02", ""), ("V11", ""), ("V04", "")
      , ("V14", ""), ("V06", ""), ("V10", ""), ("V08", ""), ("V12", "") ] }

/-- C1: for every run of the smoke test, exactly 5 lines are written to
standard output, in the fixed order greeting, UTC-now line, Python line,
Platform line, env-key-sample line; the statement-level transcription of
the cell produces the same lines. -/
theorem smokeTest_writes_five_lines_in_fixed_order (h : Host) :
    (runCell h).2.length = 5 ∧
    (runCell h).2 =
      [ Effect.printLine "Fabric Git smoke test ✅"
      , Effect.printLine ("UTC now: " ++ isoformatUTC h.nowUTC)
      , Effect.printLine ("Python: " ++ h.pythonVersion)
      , Effect.printLine ("Platform: " ++ h.platformString)
      , Effect.printLine ("Sample env var keys: " ++
          pyListRepr (envKeySample (environKeys h))) ] ∧
    execStmts h demoCellStatements = smokeTestLines h :=
  ⟨rfl, rfl, rfl⟩

/-- C2: for every process environment with distinct variable names, the
printed env-key sample is at most 10 strings, sorted ascending by CPython
string comparison, with no duplicates, and the last output line renders
exactly that sample. -/
theorem envKeySample_le_ten_sorted_nodup (h : Host)
    (hkeys : (environKeys h).Nodup) :
    (envKeySample (environKeys h)).length ≤ 10 ∧
    (envKeySample (environKeys h)).Sorted pyLe ∧
    (envKeySample (environKeys h)).Nodup ∧
    (smokeTestLines h).getD 4 "" =
      "Sample env var keys: " ++ pyListRepr (envKeySample (environKeys h)) :=
  ⟨envKeySample_length_le _, envKeySample_sorted _,
   envKeySample_nodup _ hkeys, rfl⟩

/-- Witness for C2 at a concrete two-variable host. -/
theorem envKeySample_le_ten_sorted_nodup_witness :
    (environKeys hostA).Nodup ∧
    ((envKeySample (environKeys hostA)).length ≤ 10 ∧
     (envKeySample (environKeys hostA)).Sorted pyLe ∧
     (envKeySample (environKeys hostA)).Nodup ∧
     (smokeTestLines hostA).getD 4 "" =
       "Sample env var keys: " ++
         pyListRepr (envKeySample (environKeys hostA))) :=
  ⟨by decide, envKeySample_le_ten_sorted_nodup hostA (by decide)⟩

/-- C3: with more than 10 environment variables the sample has exactly 10
entries, each drawn from the environment, and every key left out compares
strictly above every sampled key: the full key list is sorted before it is
truncated. -/
theorem envKeySample_is_ten_smallest (h : Host)
    (hlen : 10 < (environKeys h).length) :
    (envKeySample (environKeys h)).length = 10 ∧
    (∀ x ∈ envKeySample (environKeys h), x ∈ environKeys h) ∧
    (∀ y ∈ environKeys h, y ∉ envKeySample (environKeys h) →
      ∀ x ∈ envKeySample (environKeys h), pyLe x y ∧ x ≠ y) :=
  ⟨envKeySample_length_eq _ hlen, envKeySample_mem _,
   envKeySample_dominated _⟩

/-- Witness for C3 at a concrete 15-variable host. -/
theorem envKeySample_is_ten_smallest_witness :
    10 < (environKeys hostFifteen).length ∧
    ((envKeySample (environKeys hostFifteen)).length = 10 ∧
     (∀ x ∈ envKeySample (environKeys hostFifteen),
        x ∈ environKeys hostFifteen) ∧
     (∀ y ∈ environKeys hostFifteen,
        y ∉ envKeySample (environKeys hostFifteen) →
        ∀ x ∈ envKeySample (environKeys hostFifteen), pyLe x y ∧ x ≠ y)) :=
  ⟨by decide, envKeySample_is_ten_smallest hostFifteen (by decide)⟩

/-- C4: with environment `{ZETA, ALPHA}` (in either table order) the sample
is the list `ALPHA, ZETA`, with `ALPHA` first, and the last output line
renders exactly that list. -/
theorem zeta_alpha_sample_sorted :
    envKeySample ["ZETA", "ALPHA"] = ["ALPHA", "ZETA"] ∧
    envKeySample ["ALPHA", "ZETA"] = ["ALPHA", "ZETA"] ∧
    (smokeTestLines
      { hostA with environ := [("ZETA", "1"), ("ALPHA", "2")] }).getD 4 "" =
      "Sample env var keys: " ++ pyListRepr ["ALPHA", "ZETA"] := by
  refine ⟨by decide, by decide, ?_⟩
  have hs : envKeySample (environKeys
      { hostA with environ := [("ZETA", "1"), ("ALPHA", "2")] }) =
      ["ALPHA", "ZETA"] := by decide
  simp only [smokeTestLines, List.getD_cons_succ, List.getD_cons_zero, hs]

/-- C5: with an empty environment the sample is empty and the last output
line renders the empty list. -/
theorem empty_environment_renders_empty_list :
    envKeySample [] = [] ∧
    (smokeTestLines { hostA with environ := [] }).getD 4 "" =
      "Sample env var keys: []" := by
  refine ⟨rfl, ?_⟩
  have hs : envKeySample (environKeys { hostA with environ := [] }) = [] :=
    rfl
  simp only [smokeTestLines, List.getD_cons_succ, List.getD_cons_zero, hs]
  rfl

/-- C6: the second output line is `UTC now: ` followed by the clock reading
formatted by `isoformat`; that timestamp is a well-formed ISO-8601 instant
and ends in the explicit UTC offset `+00:00`. -/
theorem utc_line_iso8601_with_offset (h : Host) :
    (smokeTestLines h).getD 1 "" = "UTC now: " ++ isoformatUTC h.nowUTC ∧
    isIso8601WithUTCOffset (isoformatUTC h.nowUTC) = true ∧
    ∃ p : List Char,
      (isoformatUTC h.nowUTC).data = p ++ ['+', '0', '0', ':', '0', '0'] :=
  ⟨rfl, isoformatUTC_valid _, isoformatUTC_offset_suffix _⟩

/-- C7: two runs in the same process (same interpreter version, platform
descriptor and environment) produce the same number of lines, agree on
lines 1, 3, 4 and 5, each carry their own timestamp on line 2, and their
outputs coincide exactly when the rendered timestamps do. -/
theorem runs_differ_only_in_timestamp (h1 h2 : Host)
    (hpv : h1.pythonVersion = h2.pythonVersion)
    (hpl : h1.platformString = h2.platformString)
    (henv : h1.environ = h2.environ) :
    (smokeTestLines h1).length = (smokeTestLines h2).length ∧
    (smokeTestLines h1).getD 0 "" = (smokeTestLines h2).getD 0 "" ∧
    (smokeTestLines h1).getD 2 "" = (smokeTestLines h2).getD 2 "" ∧
    (smokeTestLines h1).getD 3 "" = (smokeTestLines h2).getD 3 "" ∧
    (smokeTestLines h1).getD 4 "" = (smokeTestLines h2).getD 4 "" ∧
    (smokeTestLines h1).getD 1 "" = "UTC now: " ++ isoformatUTC h1.nowUTC ∧
    (smokeTestLines h2).getD 1 "" = "UTC now: " ++ isoformatUTC h2.nowUTC ∧
    (smokeTestLines h1 = smokeTestLines h2 ↔
      isoformatUTC h1.nowUTC = isoformatUTC h2.nowUTC) := by
  refine ⟨by simp [smokeTestLines], by simp [smokeTestLines], ?_, ?_, ?_,
    rfl, rfl, ?_⟩
  · simp [smokeTestLines, hpv]
  · simp [smokeTestLines, hpl]
  · simp [smokeTestLines, environKeys, henv]
  · constructor
    · intro he
      simp only [smokeTestLines, List.cons.injEq] at he
      have hd := congrArg String.data he.2.1
      rw [String.data_append, String.data_append] at hd
      exact String.ext (List.append_cancel_left hd)
    · intro he
      simp [smokeTestLines, hpv, hpl, environKeys, henv, he]

/-- Witness for C7 at two concrete hosts that differ only in the clock. -/
theorem runs_differ_only_in_timestamp_witness :
    (smokeTestLines hostA).length = (smokeTestLines hostB).length ∧
    (smokeTestLines hostA).getD 0 "" = (smokeTestLines hostB).getD 0 "" ∧
    (smokeTestLines hostA).getD 2 "" = (smokeTestLines hostB).getD 2 "" ∧
    (smokeTestLines hostA).getD 3 "" = (smokeTestLines hostB).getD 3 "" ∧
    (smokeTestLines hostA).getD 4 "" = (smokeTestLines hostB).getD 4 "" ∧
    (smokeTestLines hostA).getD 1 "" =
      "UTC now: " ++ isoformatUTC hostA.nowUTC ∧
    (smokeTestLines hostB).getD 1 "" =
      "UTC now: " ++ isoformatUTC hostB.nowUTC ∧
    (smokeTestLines hostA = smokeTestLines hostB ↔
      isoformatUTC hostA.nowUTC = isoformatUTC hostB.nowUTC) :=
  runs_differ_only_in_timestamp hostA hostB rfl rfl rfl

/-- C8: the run leaves the host state — in particular the environment table
and the file system — unchanged, and every effect in its trace is a write
to standard output: no file writes, no network requests, no environment
mutation. -/
theorem smokeTest_frame_only_stdout (h : Host) :
    (runCell h).1 = h ∧
    (runCell h).1.environ = h.environ ∧
    (runCell h).1.files = h.files ∧
    (runCell h).2.all Effect.isPrintLine = true := by
  refine ⟨rfl, rfl, rfl, ?_⟩
  simp [runCell, smokeTestLines, Effect.isPrintLine]

/-- C9: the run fails exactly when one of the ambient reads (clock,
interpreter metadata, platform descriptor, environment table) fails, and
any error it surfaces is the unmodified error of a failing read — no local
recovery, no retry. -/
theorem error_iff_ambient_read_fails (f : FallibleHost) :
    ((cellRunFallible f).2 = none ↔ f.allReadsOk = true) ∧
    (∀ e, (cellRunFallible f).2 = some e →
      f.readClock = .error e ∨ f.readPythonVersion = .error e ∨
      f.readPlatform = .error e ∨ f.readEnviron = .error e) := by
  rcases f with ⟨rc, rv, rp, re⟩
  cases rc <;> cases rv <;> cases rp <;> cases re <;>
    simp [cellRunFallible, FallibleHost.allReadsOk, Except.isOk,
      Except.toBool]

/-- Witness for C9: a failing clock read surfaces its own error. -/
theorem error_iff_ambient_read_fails_witness :
    (FallibleHost.mk (.error (.environmentUnavailable "clock"))
        (.ok "3.11.4") (.ok "Linux-5.15.0-x86_64")
        (.ok [("PATH", "/usr/bin")])).readClock =
      .error (.environmentUnavailable "clock") ∨
    (FallibleHost.mk (.error (.environmentUnavailable "clock"))
        (.ok "3.11.4") (.ok "Linux-5.15.0-x86_64")
        (.ok [("PATH", "/usr/bin")])).readPythonVersion =
      .error (.environmentUnavailable "clock") ∨
    (FallibleHost.mk (.error (.environmentUnavailable "clock"))
        (.ok "3.11.4") (.ok "Linux-5.15.0-x86_64")
        (.ok [("PATH", "/usr/bin")])).readPlatform =
      .error (.environmentUnavailable "clock") ∨
    (FallibleHost.mk (.error (.environmentUnavailable "clock"))
        (.ok "3.11.4") (.ok "Linux-5.15.0-x86_64")
        (.ok [("PATH", "/usr/bin")])).readEnviron =
      .error (.environmentUnavailable "clock") :=
  (error_iff_ambient_read_fails _).2 (.environmentUnavailable "clock") rfl

/-- C10: the executable cells of the two notebooks are the same statement
sequence, so on any host they write byte-for-byte identical standard
output. -/
theorem demo_deployment_cells_identical (h : Host) :
    demoCellStatements = deploymentCellStatements ∧
    execStmts h demoCellStatements = execStmts h deploymentCellStatements :=
  ⟨rfl, rfl⟩

end FabricSmoke
